import Mathlib

/-!
Verification development for the `rix::fs` header-only filesystem helper
library.  The C++ sources are shallowly embedded:

* `std::string` is embedded as `List Char`; on POSIX the native and the
  generic string form of `std::filesystem::path` coincide, so the lexical
  helpers (`normalize`, `ensure_trailing_separator`) are functions on
  `List Char`.
* The filesystem state is an association list from absolute component
  paths (`List String`) to nodes (regular file with byte content, or
  directory).  An environment additionally carries the set of paths on
  which a `stat`-style query fails for an external reason (permissions
  and the like); this is how the error channel of the `std::filesystem`
  primitives is made explicit.
* Each `std::filesystem` primitive used by the library is modelled after
  its specification in the C++ standard (the `ec`-taking overloads, which
  report errors through an error code instead of throwing).
* Each `rix::fs` wrapper is translated line by line from the source:
  functions declared `noexcept` that swallow the error code become total
  `Bool`-valued functions, and throwing functions become `Except Err`
  computations, where `Err.systemError` embeds `std::system_error` and
  `Err.runtimeError` embeds `std::runtime_error`.
-/

/-- Decidable equality for `Except`, used to evaluate the embedded
operations on concrete inputs. -/
instance {ε α : Type} [DecidableEq ε] [DecidableEq α] : DecidableEq (Except ε α) := fun x y =>
  match x, y with
  | .ok a, .ok b =>
    if h : a = b then isTrue (by rw [h]) else isFalse (by intro hc; injection hc; contradiction)
  | .error a, .error b =>
    if h : a = b then isTrue (by rw [h]) else isFalse (by intro hc; injection hc; contradiction)
  | .ok _, .error _ => isFalse (by intro hc; injection hc)
  | .error _, .ok _ => isFalse (by intro hc; injection hc)

namespace RixFs

/-! ## Lexical section: `std::string` as `List Char` (POSIX generic form) -/

/-- A `std::string` holding a path in generic (POSIX) form. -/
abbrev Str := List Char

/-- Characters of a Lean string literal, used to state concrete examples. -/
def strChars (s : String) : Str := s.data

/-- Embeds `rix::fs::ensure_trailing_separator` (path.hpp).  The source
checks `p.empty()`, otherwise takes `p.generic_string()` and appends `'/'`
when `!s.empty() && s.back() != '/'`.  `std::string::back` is embedded as
`List.getLast?`. -/
def ensure_trailing_separator (p : Str) : Str :=
  if p = [] then p
  else
    let s := p
    if s ≠ [] ∧ s.getLast? ≠ some '/' then s ++ ['/'] else s

/-- Splits the character list of a path on `'/'` runs into its non-empty
filename components (the decomposition used by `lexically_normal`). -/
def pathComps : Str → Str → List Str
  | [], acc => if acc = [] then [] else [acc.reverse]
  | c :: cs, acc =>
    if c = '/' then
      (if acc = [] then pathComps cs [] else acc.reverse :: pathComps cs []) else
      pathComps cs (c :: acc)

/-- One step of the dot / dot-dot collapsing of `lexically_normal`
([fs.path.generic] rules 4, 5 and 6), on a stack whose head is the most
recent surviving component.  `abs` tells whether the path has a root
directory. -/
def normStep (abs : Bool) (stack : List Str) (c : Str) : List Str :=
  if c = ['.'] then stack
  else if c = ['.', '.'] then
    match stack with
    | top :: rest => if top = ['.', '.'] then c :: stack else rest
    | [] => if abs then [] else [c]
  else c :: stack

/-- Collapsed component list of `lexically_normal`. -/
def normComps (abs : Bool) (cs : List Str) : List Str :=
  (cs.foldl (normStep abs) []).reverse

/-- Whether the normal form keeps a trailing separator: the original path
ended in a separator or in a collapsed `.`/`..` component, the surviving
component list is non-empty, and its last component is not `..`
([fs.path.generic] rules 4, 5 and 7). -/
def normTrail (trail : Bool) (lastTok : Option Str) (comps : List Str) : Bool :=
  (trail || lastTok = some ['.'] || lastTok = some ['.', '.'])
    && comps ≠ [] && comps.getLast? ≠ some ['.', '.']

/-- Embeds `rix::fs::normalize` (path.hpp), i.e.
`std::filesystem::path::lexically_normal` for POSIX paths (no root name):
the 8-rule algorithm of [fs.path.generic] expressed on the component
decomposition.  Purely lexical: the function does not take a filesystem
state at all, and it is total. -/
def normalize (s : Str) : Str :=
  if s = [] then []
  else
    let abs : Bool := s.head? = some '/'
    let trail : Bool := s.getLast? = some '/'
    let cs := pathComps s []
    let comps := normComps abs cs
    let r :=
      (if abs then ['/'] else []) ++ List.intercalate ['/'] comps ++
        (if normTrail trail cs.getLast? comps then ['/'] else [])
    if r = [] then ['.'] else r

/-! ## Filesystem model -/

/-- An absolute filesystem location as its list of components. -/
abbrev Path := List String

/-- A filesystem node: a regular file with its byte content, or a
directory. -/
inductive Node
  | file (content : List Nat)
  | dir
  deriving DecidableEq

/-- The filesystem: an association list from paths to nodes.  The root
directory is implicit (the empty component list is not an entry). -/
abbrev FS := List (Path × Node)

/-- Environment of a call: the filesystem, plus the set of paths on which
a `stat`-family query fails for an external reason (e.g. permission
denied), which is how the `std::filesystem` error channel is modelled. -/
structure Env where
  fs : FS
  statErr : List Path
  deriving DecidableEq

/-- First binding of a path in the filesystem. -/
def findNode : FS → Path → Option Node
  | [], _ => none
  | (q, n) :: rest, p => if q = p then some n else findNode rest p

/-- Removes every binding of a path. -/
def eraseKey (fs : FS) (p : Path) : FS :=
  fs.filter (fun e => decide (e.1 ≠ p))

/-- Whether some entry lies strictly below `p`. -/
def hasChild (fs : FS) (p : Path) : Bool :=
  fs.any (fun e => decide (p ≠ e.1 ∧ p <+: e.1))

/-- Rendering of a path used in the error-message strings
(`std::filesystem::path::string`). -/
def pathStr (p : Path) : String := String.intercalate "/" p

/-- Exceptions thrown by the library: `Err.systemError` embeds
`std::system_error` (system-level IOError), `Err.runtimeError` embeds
`std::runtime_error` (logic-level error). -/
inductive Err
  | systemError (msg : String)
  | runtimeError (msg : String)
  deriving DecidableEq

/-! ### `std::filesystem` primitives (error-code overloads)

Each models the corresponding C++ standard primitive: the `Bool` named
`ec` tells whether the primitive reported an error through its
`std::error_code` out-parameter. -/

/-- Models `std::filesystem::exists(p, ec)`: on a status failure the
error code is set and the result is `false`; a missing path is reported
as `false` with a clear error code. -/
def stdExists (env : Env) (p : Path) : Bool × Bool :=
  if p ∈ env.statErr then (false, true)
  else ((findNode env.fs p).isSome, false)

/-- Models `std::filesystem::is_regular_file(p, ec)`: `ec` is whatever
`status(p, ec)` left there ([fs.op.status], [fs.op.is.regular.file]), so
for a nonexistent path the error code is set (ENOENT) and the result is
`false`; unlike `exists(p, ec)`, there is no clearing of `ec` for the
known `not_found` status. -/
def stdIsRegularFile (env : Env) (p : Path) : Bool × Bool :=
  if p ∈ env.statErr then (false, true)
  else
    match findNode env.fs p with
    | some (.file _) => (true, false)
    | some .dir => (false, false)
    | none => (false, true)

/-- Models `std::filesystem::is_directory(p, ec)`: same error-code
behaviour as `is_regular_file(p, ec)` — a nonexistent path leaves the
ENOENT error code set. -/
def stdIsDirectory (env : Env) (p : Path) : Bool × Bool :=
  if p ∈ env.statErr then (false, true)
  else
    match findNode env.fs p with
    | some .dir => (true, false)
    | some (.file _) => (false, false)
    | none => (false, true)

/-- Models `std::filesystem::file_size(p, ec)`: the byte count of a
regular file, an error otherwise. -/
def stdFileSize (env : Env) (p : Path) : Nat × Bool :=
  if p ∈ env.statErr then (0, true)
  else
    match findNode env.fs p with
    | some (.file c) => (c.length, false)
    | _ => (0, true)

/-- Result of `std::filesystem::remove(p, ec)`. -/
structure RmRes where
  removed : Bool
  ec : Bool
  fs : FS
  deriving DecidableEq

/-- Models `std::filesystem::remove(p, ec)`: removes a regular file or an
empty directory; a missing path yields `false` without an error; a
non-empty directory yields an error. -/
def stdRemove (env : Env) (p : Path) : RmRes :=
  if p ∈ env.statErr then ⟨false, true, env.fs⟩
  else
    match findNode env.fs p with
    | none => ⟨false, false, env.fs⟩
    | some (.file _) => ⟨true, false, eraseKey env.fs p⟩
    | some .dir =>
      if hasChild env.fs p then ⟨false, true, env.fs⟩
      else ⟨true, false, eraseKey env.fs p⟩

/-- Result of `std::filesystem::remove_all(p, ec)`. -/
structure RmAllRes where
  count : Nat
  ec : Bool
  fs : FS
  deriving DecidableEq

/-- Models `std::filesystem::remove_all(p, ec)`: deletes the whole
subtree rooted at `p` and counts the removed entries; a missing path
yields count `0` without an error. -/
def stdRemoveAll (env : Env) (p : Path) : RmAllRes :=
  if p ∈ env.statErr then ⟨0, true, env.fs⟩
  else
    match findNode env.fs p with
    | none => ⟨0, false, env.fs⟩
    | some _ =>
      ⟨env.fs.countP (fun e => decide (p <+: e.1)),
        false,
        env.fs.filter (fun e => decide (¬ p <+: e.1))⟩

/-- Result of `std::filesystem::create_directories(p, ec)`. -/
structure CDRes where
  created : Bool
  ec : Bool
  fs : FS
  deriving DecidableEq

/-- Walk of `create_directories` over the successive non-empty prefixes
of the path: an existing directory is kept, a missing level is created,
and an existing non-directory entry is an error (the primitive then
returns `false` with the error code set, possibly after having created
earlier levels). -/
def createDirsAux : FS → Path → List String → CDRes
  | fs, _, [] => ⟨false, false, fs⟩
  | fs, pref, x :: rest =>
    let q := pref ++ [x]
    match findNode fs q with
    | some .dir => createDirsAux fs q rest
    | some (.file _) => ⟨false, true, fs⟩
    | none =>
      let r := createDirsAux ((q, Node.dir) :: fs) q rest
      if r.ec then ⟨false, true, r.fs⟩ else ⟨true, false, r.fs⟩

/-- Models `std::filesystem::create_directories(p, ec)`; the empty path
is an error. -/
def stdCreateDirectories (fs : FS) (p : Path) : CDRes :=
  if p = [] then ⟨false, true, fs⟩ else createDirsAux fs [] p

/-- Whether the parent of `p` can receive a new entry: `p` is a direct
child of the implicit root, or its parent is an existing directory. -/
def parentOk (fs : FS) (p : Path) : Prop :=
  p.dropLast = [] ∨ findNode fs p.dropLast = some Node.dir

instance (fs : FS) (p : Path) : Decidable (parentOk fs p) := by
  unfold parentOk; infer_instance

/-- Whether opening `p` for writing (`std::ofstream`, create or truncate)
succeeds: the path is non-empty, is not an existing directory, and its
parent directory exists. -/
def canOpenWrite (fs : FS) (p : Path) : Prop :=
  p ≠ [] ∧ findNode fs p ≠ some Node.dir ∧ parentOk fs p

instance (fs : FS) (p : Path) : Decidable (canOpenWrite fs p) := by
  unfold canOpenWrite; infer_instance

/-- Replaces (or creates) the binding of `p` with a regular file holding
`c`. -/
def insertFile (fs : FS) (p : Path) (c : List Nat) : FS :=
  (p, Node.file c) :: eraseKey fs p

/-- Result of `std::filesystem::copy_file(from, to, options, ec)`. -/
structure CpRes where
  ok : Bool
  ec : Bool
  fs : FS
  deriving DecidableEq

/-- Models `std::filesystem::copy_file(from, to, options, ec)` with
`options` either `none` or `overwrite_existing` ([fs.op.copy.file]): an
error is reported when the source is not a regular file, when the
destination exists and is not a regular file, when source and destination
are the same file, or when the destination exists and no overwrite option
was given (a `file_exists` error code); otherwise the contents are copied
and the call returns `true`.  Path equality stands in for `equivalent`
(the model has no links). -/
def stdCopyFile (env : Env) (f t : Path) (ow : Bool) : CpRes :=
  if f ∈ env.statErr ∨ t ∈ env.statErr then ⟨false, true, env.fs⟩
  else
    match findNode env.fs f with
    | some (.file c) =>
      match findNode env.fs t with
      | none =>
        if t ≠ [] ∧ parentOk env.fs t then ⟨true, false, insertFile env.fs t c⟩
        else ⟨false, true, env.fs⟩
      | some (.file _) =>
        if f = t then ⟨false, true, env.fs⟩
        else if ow then ⟨true, false, insertFile env.fs t c⟩
        else ⟨false, true, env.fs⟩
      | some .dir => ⟨false, true, env.fs⟩
    | _ => ⟨false, true, env.fs⟩

/-! ### `rix::fs` wrappers (file.hpp, dir.hpp, ops.hpp) -/

/-- Embeds `rix::fs::path_exists` (file.hpp): `noexcept`, discards the
error code — failure collapses to `false`.  The `Bool` return type is the
formal content of "never raises". -/
def path_exists (env : Env) (p : Path) : Bool :=
  (stdExists env p).1

/-- Embeds `rix::fs::is_file_path` (file.hpp): `noexcept`, discards the
error code. -/
def is_file_path (env : Env) (p : Path) : Bool :=
  (stdIsRegularFile env p).1

/-- Embeds `rix::fs::is_dir_path` (file.hpp): `noexcept`, discards the
error code. -/
def is_dir_path (env : Env) (p : Path) : Bool :=
  (stdIsDirectory env p).1

/-- Embeds `rix::fs::file_size_bytes` (file.hpp): stat failure throws
`std::system_error`; a non-regular-file throws `std::runtime_error`; a
failing size query throws `std::system_error`; otherwise the byte count
is returned. -/
def file_size_bytes (env : Env) (p : Path) : Except Err Nat :=
  let r := stdIsRegularFile env p
  if r.2 then .error (.systemError ("rix::fs::file_size_bytes: stat failed: " ++ pathStr p))
  else if !r.1 then .error (.runtimeError ("rix::fs::file_size_bytes: not a regular file: " ++ pathStr p))
  else
    let s := stdFileSize env p
    if s.2 then .error (.systemError ("rix::fs::file_size_bytes: file_size failed: " ++ pathStr p))
    else .ok s.1

/-- Embeds `rix::fs::read_text` (file.hpp): an open failure throws
`std::system_error`; reading consumes all bytes as-is (no transcoding).
Opening a directory for reading is modelled as the read-failure
`std::runtime_error` branch (no claim depends on that corner). -/
def read_text (env : Env) (p : Path) : Except Err (List Nat) :=
  match findNode env.fs p with
  | some (.file c) => .ok c
  | some .dir => .error (.runtimeError ("rix::fs::read_text: read failed: " ++ pathStr p))
  | none => .error (.systemError ("rix::fs::read_text: open failed: " ++ pathStr p))

/-- Embeds `rix::fs::write_text` (file.hpp): opens with truncation
(create if absent, discard prior content) and writes the payload bytes
as-is; an open failure throws `std::system_error`. -/
def write_text (env : Env) (p : Path) (s : List Nat) : Except Err Env :=
  if canOpenWrite env.fs p then .ok { env with fs := insertFile env.fs p s }
  else .error (.systemError ("rix::fs::write_text: open failed: " ++ pathStr p))

/-- Embeds `rix::fs::copy_file` (file.hpp): first the error code of the
underlying `std::filesystem::copy_file` is checked (`std::system_error`),
then the returned flag (`std::runtime_error` "not copied"). -/
def copy_file (env : Env) (f t : Path) (ow : Bool) : Except Err Env :=
  let r := stdCopyFile env f t ow
  if r.ec then .error (.systemError ("rix::fs::copy_file: failed: " ++ pathStr f ++ " -> " ++ pathStr t))
  else if !r.ok then .error (.runtimeError ("rix::fs::copy_file: not copied: " ++ pathStr f ++ " -> " ++ pathStr t))
  else .ok { env with fs := r.fs }

/-- Embeds `rix::fs::remove_file` (file.hpp): forwards to
`std::filesystem::remove` and throws `std::system_error` when the error
code is set. -/
def remove_file (env : Env) (p : Path) : Except Err (Bool × Env) :=
  let r := stdRemove env p
  if r.ec then .error (.systemError ("rix::fs::remove_file: failed: " ++ pathStr p))
  else .ok (r.removed, { env with fs := r.fs })

/-- Embeds `rix::fs::remove_dir` (dir.hpp): forwards to
`std::filesystem::remove` and throws `std::system_error` when the error
code is set; only the message differs from `remove_file`. -/
def remove_dir (env : Env) (p : Path) : Except Err (Bool × Env) :=
  let r := stdRemove env p
  if r.ec then .error (.systemError ("rix::fs::remove_dir: failed: " ++ pathStr p))
  else .ok (r.removed, { env with fs := r.fs })

/-- Embeds `rix::fs::remove_all` (dir.hpp): forwards to
`std::filesystem::remove_all` and throws `std::system_error` when the
error code is set; returns the removal count. -/
def remove_all (env : Env) (p : Path) : Except Err (Nat × Env) :=
  let r := stdRemoveAll env p
  if r.ec then .error (.systemError ("rix::fs::remove_all: failed: " ++ pathStr p))
  else .ok (r.count, { env with fs := r.fs })

/-- Embeds `rix::fs::recursive_remove` (ops.hpp): same body as
`remove_all` up to the message text. -/
def recursive_remove (env : Env) (p : Path) : Except Err (Nat × Env) :=
  let r := stdRemoveAll env p
  if r.ec then .error (.systemError ("rix::fs::recursive_remove: failed: " ++ pathStr p))
  else .ok (r.count, { env with fs := r.fs })

/-- Embeds `rix::fs::ensure_dir` (ops.hpp), line by line: when
`exists(p, ec)` holds, a set error code throws `std::system_error`, a
non-directory throws `std::runtime_error`, a directory returns; when it
does not hold, `create_directories(p, ec)` runs, and a `false` result
with a set error code throws `std::system_error`. -/
def ensure_dir (env : Env) (p : Path) : Except Err Env :=
  let e := stdExists env p
  if e.1 then
    if e.2 then .error (.systemError ("rix::fs::ensure_dir: exists failed: " ++ pathStr p))
    else
      let d := stdIsDirectory env p
      if !d.1 then .error (.runtimeError ("rix::fs::ensure_dir: not a directory: " ++ pathStr p))
      else .ok env
  else
    let r := stdCreateDirectories env.fs p
    if !r.created ∧ r.ec then .error (.systemError ("rix::fs::ensure_dir: create failed: " ++ pathStr p))
    else .ok { env with fs := r.fs }

/-! ## Helper lemmas -/

theorem findNode_cons (q : Path) (n : Node) (fs : FS) (p : Path) :
    findNode ((q, n) :: fs) p = if q = p then some n else findNode fs p := rfl

theorem findNode_mem {fs : FS} {p : Path} {n : Node} (h : findNode fs p = some n) :
    (p, n) ∈ fs := by
  induction fs with
  | nil => simp [findNode] at h
  | cons e rest ih =>
    rcases e with ⟨q, m⟩
    rw [findNode_cons] at h
    by_cases hq : q = p
    · rw [if_pos hq] at h
      injection h with h
      subst hq; subst h
      exact List.mem_cons_self _ _
    · rw [if_neg hq] at h
      exact List.mem_cons_of_mem _ (ih h)

theorem findNode_eraseKey_self (fs : FS) (p : Path) :
    findNode (eraseKey fs p) p = none := by
  induction fs with
  | nil => rfl
  | cons e rest ih =>
    rcases e with ⟨q, n⟩
    rw [eraseKey, List.filter_cons]
    by_cases hq : q = p
    · rw [if_neg (by simp [hq])]
      exact ih
    · rw [if_pos (by simp [hq]), findNode_cons, if_neg hq]
      exact ih

theorem findNode_filter_none (fs : FS) (p : Path) (pred : Path × Node → Bool)
    (hp : ∀ n, pred (p, n) = false) : findNode (fs.filter pred) p = none := by
  induction fs with
  | nil => rfl
  | cons e rest ih =>
    rcases e with ⟨q, n⟩
    rw [List.filter_cons]
    by_cases he : pred (q, n) = true
    · rw [if_pos he, findNode_cons]
      by_cases hq : q = p
      · subst hq; rw [hp n] at he; cases he
      · rw [if_neg hq]; exact ih
    · rw [if_neg he]; exact ih

/-! ## Claim theorems -/

/-- C1: for every path `p` that does not exist, `path_exists`,
`is_file_path` and `is_dir_path` all return `false`, and likewise when
the underlying stat fails: every failure mode collapses to a `false`
result.  The three wrappers are total `Bool`-valued functions (the
embedding of their `noexcept` no-throw contract), so none of them can
raise. -/
theorem c1_safe_checks (env : Env) (p : Path) :
    (findNode env.fs p = none →
      path_exists env p = false ∧ is_file_path env p = false ∧ is_dir_path env p = false) ∧
    (p ∈ env.statErr →
      path_exists env p = false ∧ is_file_path env p = false ∧ is_dir_path env p = false) := by
  constructor
  · intro h
    by_cases hm : p ∈ env.statErr <;>
      simp [path_exists, is_file_path, is_dir_path, stdExists, stdIsRegularFile,
        stdIsDirectory, hm, h]
  · intro hm
    simp [path_exists, is_file_path, is_dir_path, stdExists, stdIsRegularFile,
      stdIsDirectory, hm]

/-- Witness for C1 at a missing path and at a path whose stat fails. -/
theorem c1_safe_checks_witness :
    (path_exists ⟨[], [["e"]]⟩ ["x"] = false ∧ is_file_path ⟨[], [["e"]]⟩ ["x"] = false ∧
      is_dir_path ⟨[], [["e"]]⟩ ["x"] = false) ∧
    (path_exists ⟨[], [["e"]]⟩ ["e"] = false ∧ is_file_path ⟨[], [["e"]]⟩ ["e"] = false ∧
      is_dir_path ⟨[], [["e"]]⟩ ["e"] = false) :=
  ⟨(c1_safe_checks ⟨[], [["e"]]⟩ ["x"]).1 (by decide),
   (c1_safe_checks ⟨[], [["e"]]⟩ ["e"]).2 (by decide)⟩

/-- C2: writing a byte sequence with `write_text` and reading it back
with `read_text` returns exactly the written bytes, for every byte
sequence including the empty one — the content is stored and returned
as-is, with no transcoding. -/
theorem c2_write_read_round_trip (env : Env) (p : Path) (s : List Nat) (env' : Env)
    (h : write_text env p s = .ok env') : read_text env' p = .ok s := by
  unfold write_text at h
  split at h
  · injection h with h
    subst h
    simp [read_text, insertFile, findNode_cons]
  · cases h

/-- Witness for C2: round trip of the empty byte sequence and of a
non-empty one. -/
theorem c2_write_read_round_trip_witness :
    read_text ⟨[(["f"], Node.file [])], []⟩ ["f"] = .ok [] ∧
    read_text ⟨[(["g"], Node.file [104, 105])], []⟩ ["g"] = .ok [104, 105] :=
  ⟨c2_write_read_round_trip ⟨[], []⟩ ["f"] [] _ (by decide),
   c2_write_read_round_trip ⟨[], []⟩ ["g"] [104, 105] _ (by decide)⟩

/-- C7: after a successful `write_text p s` (on a path whose stat does
not fail), `file_size_bytes p` returns exactly the byte length of `s`. -/
theorem c7_write_then_size (env : Env) (p : Path) (s : List Nat) (env' : Env)
    (hstat : p ∉ env.statErr) (h : write_text env p s = .ok env') :
    file_size_bytes env' p = .ok s.length := by
  unfold write_text at h
  split at h
  · injection h with h
    subst h
    simp [file_size_bytes, stdIsRegularFile, stdFileSize, insertFile, findNode_cons, hstat]
  · cases h

/-- Witness for C7 at a concrete write. -/
theorem c7_write_then_size_witness :
    file_size_bytes ⟨[(["f"], Node.file [9, 8, 7])], []⟩ ["f"] = .ok 3 :=
  c7_write_then_size ⟨[], []⟩ ["f"] [9, 8, 7] _ (by decide) (by decide)

/-- C8: `normalize` collapses `.`, `..` and redundant separators; in
particular `normalize "a/./b/../c" = "a/c"`.  The function is defined on
the path value alone — it takes no filesystem state at all, which is the
formal content of "purely lexical, no filesystem access" — and it is a
total function, so it never fails, whether or not the path exists on
disk. -/
theorem c8_normalize_lexical :
    normalize (strChars "a/./b/../c") = strChars "a/c" ∧
    normalize (strChars "a//b") = strChars "a/b" ∧
    normalize (strChars "a/./b/../c/") = strChars "a/c/" := by decide

/-- C10: `ensure_trailing_separator` is idempotent, the result of a
non-empty path ends with `'/'` in generic string form, and the empty
path is returned unchanged. -/
theorem c10_ensure_trailing_separator (p : Str) :
    ensure_trailing_separator (ensure_trailing_separator p) = ensure_trailing_separator p ∧
    (p ≠ [] → (ensure_trailing_separator p).getLast? = some '/') ∧
    ensure_trailing_separator [] = [] := by
  refine ⟨?_, ?_, rfl⟩ <;> by_cases hp : p = []
  · subst hp; rfl
  · by_cases hl : p.getLast? = some '/'
    · have h1 : ensure_trailing_separator p = p := by
        unfold ensure_trailing_separator
        rw [if_neg hp, if_neg (by simp [hl])]
      rw [h1]; exact h1
    · have h1 : ensure_trailing_separator p = p ++ ['/'] := by
        unfold ensure_trailing_separator
        rw [if_neg hp, if_pos ⟨hp, hl⟩]
      have h2 : (p ++ ['/']).getLast? = some '/' := by simp
      rw [h1]
      unfold ensure_trailing_separator
      rw [if_neg (by simp), if_neg (by simp [h2])]
  · subst hp; intro hc; cases hc rfl
  · intro _
    by_cases hl : p.getLast? = some '/'
    · have h1 : ensure_trailing_separator p = p := by
        unfold ensure_trailing_separator
        rw [if_neg hp, if_neg (by simp [hl])]
      rw [h1]; exact hl
    · have h1 : ensure_trailing_separator p = p ++ ['/'] := by
        unfold ensure_trailing_separator
        rw [if_neg hp, if_pos ⟨hp, hl⟩]
      rw [h1]; simp

/-- Witness for C10 at a concrete non-empty path. -/
theorem c10_ensure_trailing_separator_witness :
    (ensure_trailing_separator (strChars "a/b")).getLast? = some '/' :=
  (c10_ensure_trailing_separator (strChars "a/b")).2.1 (by decide)

/-- C4 (amended): `file_size_bytes` fails with the system-level
`std::system_error` IOError whenever `is_regular_file(p, ec)` reports an
error — which includes the case that `p` does not exist, since the
status query leaves the ENOENT error code set there; it fails with the
distinct logic-level not-a-regular-file `std::runtime_error` when `p`
exists but is not a regular file; and on a regular file it returns the
file's byte count. -/
theorem c4_file_size_bytes (env : Env) (p : Path) :
    (p ∈ env.statErr → ∃ m, file_size_bytes env p = .error (.systemError m)) ∧
    (p ∉ env.statErr → findNode env.fs p = none →
      ∃ m, file_size_bytes env p = .error (.systemError m)) ∧
    (p ∉ env.statErr → findNode env.fs p = some Node.dir →
      ∃ m, file_size_bytes env p = .error (.runtimeError m)) ∧
    (∀ c, p ∉ env.statErr → findNode env.fs p = some (.file c) →
      file_size_bytes env p = .ok c.length) ∧
    (∀ m m', Err.runtimeError m ≠ Err.systemError m') := by
  refine ⟨?_, ?_, ?_, ?_, fun m m' h => by cases h⟩
  · intro hm
    exact ⟨"rix::fs::file_size_bytes: stat failed: " ++ pathStr p,
      by simp [file_size_bytes, stdIsRegularFile, hm]⟩
  · intro hm hf
    exact ⟨"rix::fs::file_size_bytes: stat failed: " ++ pathStr p,
      by simp [file_size_bytes, stdIsRegularFile, hm, hf]⟩
  · intro hm hf
    exact ⟨"rix::fs::file_size_bytes: not a regular file: " ++ pathStr p,
      by simp [file_size_bytes, stdIsRegularFile, hm, hf]⟩
  · intro c hm hf
    simp [file_size_bytes, stdIsRegularFile, stdFileSize, hm, hf]

/-- Witness for C4 (amended): a missing path and a path whose stat
fails both give the system-level error, a directory gives the
logic-level error, and a regular file of three bytes gives `3`. -/
theorem c4_file_size_bytes_witness :
    (∃ m, file_size_bytes ⟨[], [["e"]]⟩ ["x"] = .error (.systemError m)) ∧
    (∃ m, file_size_bytes ⟨[], [["e"]]⟩ ["e"] = .error (.systemError m)) ∧
    (∃ m, file_size_bytes ⟨[(["d"], Node.dir)], []⟩ ["d"] = .error (.runtimeError m)) ∧
    file_size_bytes ⟨[(["f"], Node.file [1, 2, 3])], []⟩ ["f"] = .ok 3 :=
  ⟨(c4_file_size_bytes ⟨[], [["e"]]⟩ ["x"]).2.1 (by decide) (by decide),
   (c4_file_size_bytes ⟨[], [["e"]]⟩ ["e"]).1 (by decide),
   (c4_file_size_bytes ⟨[(["d"], Node.dir)], []⟩ ["d"]).2.2.1 (by decide) (by decide),
   (c4_file_size_bytes ⟨[(["f"], Node.file [1, 2, 3])], []⟩ ["f"]).2.2.2.1 [1, 2, 3]
     (by decide) (by decide)⟩

/-- C4 (counterexample to the claim as stated): for a path that does
not exist, `is_regular_file(p, ec)` leaves the ENOENT error code set,
so `file_size_bytes` throws the system-level `std::system_error`
("stat failed") — not the distinct NotFound/NotAFile
`std::runtime_error` the claim asserts for every non-regular-file path
"including when p does not exist". -/
theorem c4_file_size_bytes_counterexample :
    file_size_bytes ⟨[], []⟩ ["x"] =
      .error (.systemError "rix::fs::file_size_bytes: stat failed: x") := by decide

/-- C9: `remove_file` and `remove_dir` both forward to the same
`std::filesystem::remove` primitive: on every input they either both
succeed with the same boolean and the same resulting state, or both fail
with a system-level error differing only in message text; consequently
`remove_file` also removes an empty directory and `remove_dir` also
removes a regular file. -/
theorem c9_remove_file_remove_dir (env : Env) (p : Path) :
    ((∃ b env', remove_file env p = .ok (b, env') ∧ remove_dir env p = .ok (b, env')) ∨
      (∃ m m', remove_file env p = .error (.systemError m) ∧
        remove_dir env p = .error (.systemError m'))) ∧
    (p ∉ env.statErr → findNode env.fs p = some Node.dir → hasChild env.fs p = false →
      ∃ env', remove_file env p = .ok (true, env') ∧ findNode env'.fs p = none) ∧
    (∀ c, p ∉ env.statErr → findNode env.fs p = some (Node.file c) →
      ∃ env', remove_dir env p = .ok (true, env') ∧ findNode env'.fs p = none) := by
  refine ⟨?_, ?_, ?_⟩
  · by_cases hec : (stdRemove env p).ec = true
    · exact Or.inr ⟨"rix::fs::remove_file: failed: " ++ pathStr p,
        "rix::fs::remove_dir: failed: " ++ pathStr p,
        by simp [remove_file, hec], by simp [remove_dir, hec]⟩
    · refine Or.inl ⟨(stdRemove env p).removed, ⟨(stdRemove env p).fs, env.statErr⟩, ?_, ?_⟩ <;>
        simp [remove_file, remove_dir, hec]
  · intro hm hf hc
    refine ⟨⟨eraseKey env.fs p, env.statErr⟩, ?_, findNode_eraseKey_self env.fs p⟩
    simp [remove_file, stdRemove, hm, hf, hc]
  · intro c hm hf
    refine ⟨⟨eraseKey env.fs p, env.statErr⟩, ?_, findNode_eraseKey_self env.fs p⟩
    simp [remove_dir, stdRemove, hm, hf]

/-- Witness for C9: `remove_file` removing an empty directory and
`remove_dir` removing a regular file. -/
theorem c9_remove_file_remove_dir_witness :
    (∃ env', remove_file ⟨[(["d"], Node.dir)], []⟩ ["d"] = .ok (true, env') ∧
      findNode env'.fs ["d"] = none) ∧
    (∃ env', remove_dir ⟨[(["f"], Node.file [1])], []⟩ ["f"] = .ok (true, env') ∧
      findNode env'.fs ["f"] = none) :=
  ⟨(c9_remove_file_remove_dir ⟨[(["d"], Node.dir)], []⟩ ["d"]).2.1
      (by decide) (by decide) (by decide),
   (c9_remove_file_remove_dir ⟨[(["f"], Node.file [1])], []⟩ ["f"]).2.2 [1]
      (by decide) (by decide)⟩

theorem stdCopyFile_ec_eq (env : Env) (f t : Path) (ow : Bool) :
    (stdCopyFile env f t ow).ec = !(stdCopyFile env f t ow).ok := by
  unfold stdCopyFile
  split
  · rfl
  · split
    · split
      · split <;> rfl
      · split
        · rfl
        · split <;> rfl
      · rfl
    · rfl

/-- C5 (amended): `copy_file` has exactly two outcome shapes — success,
or the system-level `std::system_error` raised whenever the underlying
`std::filesystem::copy_file` reports an error; in particular the case
"destination exists and `overwrite` is false" is reported by the
primitive as a `file_exists` error code and therefore surfaces as the
system-level error, and the distinct logic-level "not copied"
`std::runtime_error` branch of the wrapper is not reached for any input,
because with the options the wrapper passes (`none` or
`overwrite_existing`) the primitive never declines a copy without
setting the error code. -/
theorem c5_copy_file_error_shapes (env : Env) (f t : Path) (ow : Bool) :
    ((∃ env', copy_file env f t ow = .ok env') ∨
      (∃ m, copy_file env f t ow = .error (.systemError m))) ∧
    (∀ c c', f ∉ env.statErr → t ∉ env.statErr → findNode env.fs f = some (.file c) →
      findNode env.fs t = some (.file c') → f ≠ t →
      ∃ m, copy_file env f t false = .error (.systemError m)) ∧
    ((stdCopyFile env f t ow).ok = true →
      copy_file env f t ow = .ok { env with fs := (stdCopyFile env f t ow).fs }) := by
  refine ⟨?_, ?_, ?_⟩
  · by_cases hec : (stdCopyFile env f t ow).ec = true
    · exact Or.inr ⟨"rix::fs::copy_file: failed: " ++ pathStr f ++ " -> " ++ pathStr t,
        by simp [copy_file, hec]⟩
    · have hok : (stdCopyFile env f t ow).ok = true := by
        have h := stdCopyFile_ec_eq env f t ow
        rw [h] at hec
        simpa using hec
      exact Or.inl ⟨⟨(stdCopyFile env f t ow).fs, env.statErr⟩,
        by simp [copy_file, hec, hok]⟩
  · intro c c' hf ht hnf hnt hne
    refine ⟨"rix::fs::copy_file: failed: " ++ pathStr f ++ " -> " ++ pathStr t, ?_⟩
    have hec : (stdCopyFile env f t false).ec = true := by
      simp [stdCopyFile, hf, ht, hnf, hnt, hne]
    simp [copy_file, hec]
  · intro hok
    have hec : (stdCopyFile env f t ow).ec = false := by
      rw [stdCopyFile_ec_eq, hok]; rfl
    simp [copy_file, hec, hok]

/-- Witness for C5 (amended), at a copy onto an existing destination
without overwrite and at a successful overwriting copy. -/
theorem c5_copy_file_error_shapes_witness :
    (∃ m, copy_file ⟨[(["a"], Node.file [1]), (["b"], Node.file [2])], []⟩
        ["a"] ["b"] false = .error (.systemError m)) ∧
    copy_file ⟨[(["a"], Node.file [1]), (["b"], Node.file [2])], []⟩ ["a"] ["b"] true =
      .ok ⟨[(["b"], Node.file [1]), (["a"], Node.file [1])], []⟩ := by
  constructor
  · exact (c5_copy_file_error_shapes ⟨[(["a"], Node.file [1]), (["b"], Node.file [2])], []⟩
      ["a"] ["b"] false).2.1 [1] [2] (by decide) (by decide) (by decide) (by decide) (by decide)
  · have h := (c5_copy_file_error_shapes ⟨[(["a"], Node.file [1]), (["b"], Node.file [2])], []⟩
      ["a"] ["b"] true).2.2 (by decide)
    exact h.trans (by decide)

/-- C5 (counterexample to the claim as stated): when the destination
exists and `overwrite` is false, the underlying primitive reports a
`file_exists` error code, so `copy_file` raises the system-level
`std::system_error` — not the logic-level "not performed"
`std::runtime_error` the claim names for this case. -/
theorem c5_copy_file_counterexample :
    copy_file ⟨[(["a"], Node.file []), (["b"], Node.file [])], []⟩ ["a"] ["b"] false =
      .error (.systemError "rix::fs::copy_file: failed: a -> b") := by decide

/-- C6: `remove_all` and `recursive_remove` return a count of removed
entries: on a path that does not exist both return `0` without raising
and leave the state unchanged, and on an existing path both return the
same count, which is positive, and afterwards `path_exists` is false. -/
theorem c6_recursive_removal (env : Env) (p : Path) (hstat : p ∉ env.statErr) :
    (findNode env.fs p = none →
      remove_all env p = .ok (0, env) ∧ recursive_remove env p = .ok (0, env)) ∧
    (∀ n0, findNode env.fs p = some n0 →
      ∃ n env', remove_all env p = .ok (n, env') ∧ recursive_remove env p = .ok (n, env') ∧
        0 < n ∧ path_exists env' p = false) := by
  constructor
  · intro hf
    constructor <;> simp [remove_all, recursive_remove, stdRemoveAll, hstat, hf]
  · intro n0 hf
    refine ⟨env.fs.countP (fun e => decide (p <+: e.1)),
      ⟨env.fs.filter (fun e => decide (¬ p <+: e.1)), env.statErr⟩, ?_, ?_, ?_, ?_⟩
    · simp [remove_all, stdRemoveAll, hstat, hf]
    · simp [recursive_remove, stdRemoveAll, hstat, hf]
    · rw [List.countP_pos_iff]
      exact ⟨(p, n0), findNode_mem hf, by simp [List.prefix_refl]⟩
    · simp only [path_exists, stdExists]
      rw [if_neg hstat]
      rw [findNode_filter_none _ _ _ (fun n => by simp [List.prefix_refl])]
      rfl

/-- Witness for C6: a missing path returns `0` unchanged; a two-entry
tree is removed with count `2` and no longer exists. -/
theorem c6_recursive_removal_witness :
    (remove_all ⟨[], []⟩ ["x"] = .ok (0, ⟨[], []⟩) ∧
      recursive_remove ⟨[], []⟩ ["x"] = .ok (0, ⟨[], []⟩)) ∧
    (∃ n env', remove_all ⟨[(["d"], Node.dir), (["d", "f"], Node.file [1])], []⟩ ["d"] =
        .ok (n, env') ∧
      recursive_remove ⟨[(["d"], Node.dir), (["d", "f"], Node.file [1])], []⟩ ["d"] =
        .ok (n, env') ∧ 0 < n ∧ path_exists env' ["d"] = false) :=
  ⟨(c6_recursive_removal ⟨[], []⟩ ["x"] (by decide)).1 (by decide),
   (c6_recursive_removal ⟨[(["d"], Node.dir), (["d", "f"], Node.file [1])], []⟩ ["d"]
      (by decide)).2 Node.dir (by decide)⟩

theorem createDirsAux_ec_not_created (rest : List String) : ∀ (fs : FS) (pref : Path),
    (createDirsAux fs pref rest).ec = true → (createDirsAux fs pref rest).created = false := by
  induction rest with
  | nil => intro fs pref h; exact absurd h (by simp [createDirsAux])
  | cons x rest ih =>
    intro fs pref h
    rcases hq : findNode fs (pref ++ [x]) with _ | n
    · by_cases hrec : (createDirsAux ((pref ++ [x], Node.dir) :: fs) (pref ++ [x]) rest).ec = true
      · simp [createDirsAux, hq, hrec]
      · simp [createDirsAux, hq, hrec] at h
    · cases n with
      | file c => simp [createDirsAux, hq]
      | dir =>
        simp only [createDirsAux, hq] at h ⊢
        exact ih fs (pref ++ [x]) h

theorem createDirsAux_preserve (rest : List String) : ∀ (fs : FS) (pref k : Path) (n : Node),
    findNode fs k = some n → findNode (createDirsAux fs pref rest).fs k = some n := by
  induction rest with
  | nil => intro fs pref k n h; exact h
  | cons x rest ih =>
    intro fs pref k n h
    rcases hq : findNode fs (pref ++ [x]) with _ | m
    · have hk : ¬ pref ++ [x] = k := fun he => by rw [he, h] at hq; cases hq
      have h' : findNode ((pref ++ [x], Node.dir) :: fs) k = some n := by
        rw [findNode_cons, if_neg hk]; exact h
      simp only [createDirsAux, hq, apply_ite CDRes.fs, ite_self]
      exact ih _ _ _ _ h'
    · cases m with
      | file c => simpa [createDirsAux, hq] using h
      | dir =>
        simp only [createDirsAux, hq]
        exact ih _ _ _ _ h

theorem createDirsAux_all_dirs (rest : List String) : ∀ (fs : FS) (pref : Path),
    (createDirsAux fs pref rest).ec = false →
    ∀ r₁ r₂ : List String, r₁ ≠ [] → rest = r₁ ++ r₂ →
      findNode (createDirsAux fs pref rest).fs (pref ++ r₁) = some Node.dir := by
  induction rest with
  | nil =>
    intro fs pref _ r₁ r₂ h1 h2
    exact absurd (List.append_eq_nil.mp h2.symm).1 h1
  | cons x rest ih =>
    intro fs pref hec r₁ r₂ h1 h2
    rcases r₁ with _ | ⟨y, r₁'⟩
    · exact absurd rfl h1
    injection h2 with hxy hrest
    subst hxy
    rcases hq : findNode fs (pref ++ [x]) with _ | m
    · simp only [createDirsAux, hq] at hec ⊢
      have hrec : (createDirsAux ((pref ++ [x], Node.dir) :: fs) (pref ++ [x]) rest).ec = false := by
        by_cases hr : (createDirsAux ((pref ++ [x], Node.dir) :: fs) (pref ++ [x]) rest).ec = true
        · rw [if_pos hr] at hec; cases hec
        · simpa using hr
      rw [if_neg (by simp [hrec])]
      rcases r₁' with _ | ⟨z, r₁''⟩
      · have hself : findNode ((pref ++ [x], Node.dir) :: fs) (pref ++ [x]) = some Node.dir := by
          rw [findNode_cons, if_pos rfl]
        exact createDirsAux_preserve rest _ _ _ _ hself
      · rw [List.append_cons pref x (z :: r₁'')]
        exact ih _ _ hrec (z :: r₁'') r₂ (by simp) hrest
    · cases m with
      | file c => simp [createDirsAux, hq] at hec
      | dir =>
        simp only [createDirsAux, hq] at hec ⊢
        rcases r₁' with _ | ⟨z, r₁''⟩
        · exact createDirsAux_preserve rest _ _ _ _ hq
        · rw [List.append_cons pref x (z :: r₁'')]
          exact ih _ _ hec (z :: r₁'') r₂ (by simp) hrest

theorem createDirsAux_noop (rest : List String) : ∀ (fs : FS) (pref : Path),
    (∀ r₁ r₂ : List String, r₁ ≠ [] → rest = r₁ ++ r₂ →
      findNode fs (pref ++ r₁) = some Node.dir) →
    createDirsAux fs pref rest = ⟨false, false, fs⟩ := by
  induction rest with
  | nil => intro fs pref _; rfl
  | cons x rest ih =>
    intro fs pref h
    have hq : findNode fs (pref ++ [x]) = some Node.dir := h [x] rest (by simp) rfl
    simp only [createDirsAux, hq]
    refine ih fs (pref ++ [x]) ?_
    intro r₁ r₂ h1 h2
    have hx := h (x :: r₁) r₂ (by simp) (by simp [h2])
    rw [List.append_cons pref x r₁] at hx
    exact hx

theorem createDirsAux_file_fails (rest : List String) : ∀ (fs : FS) (pref : Path)
    (r₁ r₂ : List String) (c : List Nat), r₁ ≠ [] → rest = r₁ ++ r₂ →
    findNode fs (pref ++ r₁) = some (Node.file c) →
    (createDirsAux fs pref rest).ec = true := by
  induction rest with
  | nil =>
    intro fs pref r₁ r₂ c h1 h2 _
    exact absurd (List.append_eq_nil.mp h2.symm).1 h1
  | cons x rest ih =>
    intro fs pref r₁ r₂ c h1 h2 hfile
    rcases r₁ with _ | ⟨y, r₁'⟩
    · exact absurd rfl h1
    injection h2 with hxy hrest
    subst hxy
    rcases hq : findNode fs (pref ++ [x]) with _ | m
    · rcases r₁' with _ | ⟨z, r₁''⟩
      · rw [hfile] at hq; cases hq
      · have hne : ¬ pref ++ [x] = pref ++ x :: z :: r₁'' := by
          intro he
          have := List.append_cancel_left he
          cases this
        have hfile' :
            findNode ((pref ++ [x], Node.dir) :: fs) ((pref ++ [x]) ++ z :: r₁'') =
              some (Node.file c) := by
          rw [findNode_cons, ← List.append_cons pref x (z :: r₁''), if_neg hne]
          exact hfile
        have hrec := ih _ (pref ++ [x]) (z :: r₁'') r₂ c (by simp) hrest hfile'
        simp [createDirsAux, hq, hrec]
    · cases m with
      | file c' => simp [createDirsAux, hq]
      | dir =>
        rcases r₁' with _ | ⟨z, r₁''⟩
        · rw [hfile] at hq; cases hq
        · have hfile' :
              findNode fs ((pref ++ [x]) ++ z :: r₁'') = some (Node.file c) := by
            rw [← List.append_cons pref x (z :: r₁'')]
            exact hfile
          simp only [createDirsAux, hq]
          exact ih _ (pref ++ [x]) (z :: r₁'') r₂ c (by simp) hrest hfile'

/-- A successful `ensure_dir` on an existing directory (with a working
stat) is the no-op success path. -/
theorem ensure_dir_ok_dir (env : Env) (p : Path) (hm : p ∉ env.statErr)
    (hf : findNode env.fs p = some Node.dir) : ensure_dir env p = .ok env := by
  simp [ensure_dir, stdExists, stdIsDirectory, hm, hf]

theorem stdCreateDirectories_ec_not_created (fs : FS) (p : Path) :
    (stdCreateDirectories fs p).ec = true → (stdCreateDirectories fs p).created = false := by
  unfold stdCreateDirectories
  split
  · intro _; rfl
  · exact createDirsAux_ec_not_created p fs []

theorem stdCreateDirectories_all_dirs (fs : FS) (p : Path)
    (hec : (stdCreateDirectories fs p).ec = false) (hp : p ≠ []) :
    ∀ r₁ r₂ : List String, r₁ ≠ [] → p = r₁ ++ r₂ →
      findNode (stdCreateDirectories fs p).fs r₁ = some Node.dir := by
  intro r₁ r₂ h1 h2
  unfold stdCreateDirectories at hec ⊢
  rw [if_neg hp] at hec ⊢
  have hd := createDirsAux_all_dirs p fs [] hec r₁ r₂ h1 h2
  simpa using hd

theorem stdCreateDirectories_noop (fs : FS) (p : Path) (hp : p ≠ [])
    (h : ∀ r₁ r₂ : List String, r₁ ≠ [] → p = r₁ ++ r₂ → findNode fs r₁ = some Node.dir) :
    stdCreateDirectories fs p = ⟨false, false, fs⟩ := by
  unfold stdCreateDirectories
  rw [if_neg hp]
  exact createDirsAux_noop p fs [] (fun r₁ r₂ h1 h2 => by simpa using h r₁ r₂ h1 h2)

/-- When `exists` is false, a successful `ensure_dir` went through
`create_directories`: the new state carries its filesystem, the walk
reported no error, and the path is non-empty. -/
theorem ensure_dir_create_ok (env : Env) (p : Path) (env' : Env)
    (hex : (stdExists env p).1 = false) (h : ensure_dir env p = .ok env') :
    env' = ⟨(stdCreateDirectories env.fs p).fs, env.statErr⟩ ∧
      (stdCreateDirectories env.fs p).ec = false ∧ p ≠ [] := by
  simp only [ensure_dir, hex, Bool.false_eq_true, if_false] at h
  split at h
  · cases h
  case isFalse hcond =>
    injection h with h
    have hec : (stdCreateDirectories env.fs p).ec = false := by
      cases hb : (stdCreateDirectories env.fs p).ec
      · rfl
      · exact absurd ⟨by simp [stdCreateDirectories_ec_not_created _ _ hb], hb⟩ hcond
    have hp : p ≠ [] := by
      intro hnil
      rw [hnil] at hec
      simp [stdCreateDirectories] at hec
    exact ⟨h.symm, hec, hp⟩

/-- C3: `ensure_dir` is idempotent — a successful call leaves a state on
which a second call succeeds without changing anything — and is a no-op
success on pre-existing directories; it fails with the logic-level
not-a-directory `std::runtime_error` when the path exists as a
non-directory, and with the system-level `std::system_error` when
creation fails for a system reason (modelled: some ancestor of the
missing path exists as a regular file). -/
theorem c3_ensure_dir :
    (∀ (env : Env) (p : Path) (env' : Env),
      ensure_dir env p = .ok env' → ensure_dir env' p = .ok env') ∧
    (∀ (env : Env) (p : Path), p ∉ env.statErr → findNode env.fs p = some Node.dir →
      ensure_dir env p = .ok env) ∧
    (∀ (env : Env) (p : Path) (c : List Nat), p ∉ env.statErr →
      findNode env.fs p = some (Node.file c) →
      ∃ m, ensure_dir env p = .error (.runtimeError m)) ∧
    (∀ (env : Env) (p : Path), p ∉ env.statErr → findNode env.fs p = none →
      (∃ q r c, q ≠ [] ∧ p = q ++ r ∧ findNode env.fs q = some (Node.file c)) →
      ∃ m, ensure_dir env p = .error (.systemError m)) := by
  refine ⟨?_, ?_, ?_, ?_⟩
  · intro env p env' h
    by_cases hm : p ∈ env.statErr
    · have hex : (stdExists env p).1 = false := by simp [stdExists, hm]
      obtain ⟨henv, hec, hp⟩ := ensure_dir_create_ok env p env' hex h
      subst henv
      have hdirs := stdCreateDirectories_all_dirs env.fs p hec hp
      have hex' :
          (stdExists ⟨(stdCreateDirectories env.fs p).fs, env.statErr⟩ p).1 = false := by
        simp [stdExists, hm]
      have hnoop : stdCreateDirectories (stdCreateDirectories env.fs p).fs p =
          ⟨false, false, (stdCreateDirectories env.fs p).fs⟩ :=
        stdCreateDirectories_noop _ p hp hdirs
      simp [ensure_dir, hex', hnoop]
    · rcases hf : findNode env.fs p with _ | n
      · have hex : (stdExists env p).1 = false := by simp [stdExists, hm, hf]
        obtain ⟨henv, hec, hp⟩ := ensure_dir_create_ok env p env' hex h
        subst henv
        have hdir : findNode (stdCreateDirectories env.fs p).fs p = some Node.dir :=
          stdCreateDirectories_all_dirs env.fs p hec hp p [] hp (by simp)
        exact ensure_dir_ok_dir _ p hm hdir
      · cases n with
        | file c =>
          exfalso
          simp [ensure_dir, stdExists, stdIsDirectory, hm, hf] at h
        | dir =>
          have h1 := ensure_dir_ok_dir env p hm hf
          rw [h1] at h
          injection h with h
          subst h
          exact ensure_dir_ok_dir env p hm hf
  · intro env p hm hf
    exact ensure_dir_ok_dir env p hm hf
  · intro env p c hm hf
    exact ⟨"rix::fs::ensure_dir: not a directory: " ++ pathStr p,
      by simp [ensure_dir, stdExists, stdIsDirectory, hm, hf]⟩
  · rintro env p hm hf ⟨q, r, c, hq, hpq, hfile⟩
    have hp : p ≠ [] := by
      intro hnil
      rw [hnil] at hpq
      exact hq (List.append_eq_nil.mp hpq.symm).1
    have hec : (stdCreateDirectories env.fs p).ec = true := by
      unfold stdCreateDirectories
      rw [if_neg hp]
      exact createDirsAux_file_fails p env.fs [] q r c hq hpq (by simpa using hfile)
    have hcr : (stdCreateDirectories env.fs p).created = false :=
      stdCreateDirectories_ec_not_created _ _ hec
    have hex : (stdExists env p).1 = false := by simp [stdExists, hm, hf]
    exact ⟨"rix::fs::ensure_dir: create failed: " ++ pathStr p,
      by simp [ensure_dir, hex, hec, hcr]⟩

/-- Witness for C3: repeated `ensure_dir` after a creation, the no-op on
an existing directory, the not-a-directory failure on a file, and the
creation failure below a file. -/
theorem c3_ensure_dir_witness :
    ensure_dir ⟨[(["a", "b"], Node.dir), (["a"], Node.dir)], []⟩ ["a", "b"] =
      .ok ⟨[(["a", "b"], Node.dir), (["a"], Node.dir)], []⟩ ∧
    ensure_dir ⟨[(["d"], Node.dir)], []⟩ ["d"] = .ok ⟨[(["d"], Node.dir)], []⟩ ∧
    (∃ m, ensure_dir ⟨[(["f"], Node.file [])], []⟩ ["f"] = .error (.runtimeError m)) ∧
    (∃ m, ensure_dir ⟨[(["f"], Node.file [])], []⟩ ["f", "g"] = .error (.systemError m)) :=
  ⟨c3_ensure_dir.1 ⟨[], []⟩ ["a", "b"] ⟨[(["a", "b"], Node.dir), (["a"], Node.dir)], []⟩
      (by decide),
   c3_ensure_dir.2.1 ⟨[(["d"], Node.dir)], []⟩ ["d"] (by decide) (by decide),
   c3_ensure_dir.2.2.1 ⟨[(["f"], Node.file [])], []⟩ ["f"] [] (by decide) (by decide),
   c3_ensure_dir.2.2.2 ⟨[(["f"], Node.file [])], []⟩ ["f", "g"] (by decide) (by decide)
      ⟨["f"], ["g"], [], by decide, rfl, by decide⟩⟩

end RixFs
